import Mathlib

/-
Verification of the rustfs2 inode engine (src/rustfs2/src/inode.rs).

The development is a shallow embedding of the engine: the asynchronous
block device and the block allocator (external collaborators, spec §4.4)
are modelled as explicit state, and every operation of inode.rs becomes a
pure state-passing function.  Machine integers (`usize`, `u8`) are
modelled as `Nat`; the source's `transmute` between `usize` and `[u8; 8]`
is modelled as little-endian fixed-width byte encode/decode, which is the
bijection the transmute realises on the source's x86-64 host.  The two
panic sites of inode.rs become the error values of `FsErr`.
-/

namespace RustFS

/-- Modelled from the spec: `constants.rs` is not under src/.  The spec's
example scenario fixes `block_size = 4096`; the inode record holds four
8-byte fields (32 bytes); `max_entries_per_indirect_block` must equal
`block_size / 8 = 512` (spec §3, §6). -/
def BLOCK_SIZE : Nat := 4096

/-- Modelled from the spec: size in bytes of one on-disk inode record. -/
def INODE_SIZE : Nat := 32

/-- Modelled from the spec: capacity of the indirection block,
`block_size / entry_width`. -/
def LIST_SIZE : Nat := 512

/-- The two panics of inode.rs, as typed errors (spec §7):
`FileTooLarge` is the source's panic "Maximum file size exceeded!",
`PageNotAllocated` is the source's panic "Page does not exist." -/
inductive FsErr where
  | FileTooLarge
  | PageNotAllocated
  deriving DecidableEq, Repr

/-- Modelled from the spec: the global `FsInternal` configuration
(`fs.inode_base`, `fs.data_base`); `fs.rs` under src/ does not define it. -/
structure FsConfig where
  inode_base : Nat
  data_base : Nat

/-- Modelled from the spec: device and allocator state.  `disk` maps the
location argument the source passes to `fs.device.read`/`write` to the
bytes of the block stored there (the source always transfers exactly
`BLOCK_SIZE` bytes per call).  `nextFree` models the external
`FsInternal::alloc_block` counter: allocation returns `nextFree` and
increments it (spec §4.4: fresh block numbers, no reclamation). -/
structure FsState where
  disk : Nat → Nat → Nat
  nextFree : Nat

/-- The in-memory inode of inode.rs (fields `inum`, `dirtype`, `single`,
`double`, `size`). -/
structure Inode where
  inum : Nat
  dirtype : Nat
  single : Option Nat
  double : Option Nat
  size : Nat
  deriving DecidableEq, Repr

/-- Constructor `Inode::new`. -/
def Inode.new (dirtype inum : Nat) : Inode :=
  { inum := inum, dirtype := dirtype, single := none, double := none, size := 0 }

/-- Helper `ceil_div` of inode.rs line 16. -/
def ceil_div (x y : Nat) : Nat := (x + y - 1) / y

/-- Little-endian decode of `k` bytes starting at `start`: the model of
`mem::transmute::<[u8; 8], usize>`. -/
def leDecode : Nat → (Nat → Nat) → Nat → Nat
  | 0, _, _ => 0
  | k + 1, buf, start => buf start + 256 * leDecode k buf (start + 1)

/-- Decode one 8-byte field. -/
def decode8 (buf : Nat → Nat) (start : Nat) : Nat := leDecode 8 buf start

/-- Store the `k` little-endian bytes of `x` at `start`: the model of
`mem::transmute::<usize, [u8; 8]>` followed by `copy_from_slice`. -/
def storeLE (buf : Nat → Nat) (start x k : Nat) : Nat → Nat :=
  fun j => if start ≤ j ∧ j < start + k then x / 256 ^ (j - start) % 256 else buf j

/-- Replace the block stored at device location `loc`. -/
def updateDisk (d : Nat → Nat → Nat) (loc : Nat) (blk : Nat → Nat) : Nat → Nat → Nat :=
  fun l => if l = loc then blk else d l

/-- Copy `bytes` into a block buffer at position `dst`: the model of the
`copy_nonoverlapping` calls of `write`/`read`. -/
def blit (blk : Nat → Nat) (dst : Nat) (bytes : List Nat) : Nat → Nat :=
  fun j => if dst ≤ j ∧ j < dst + bytes.length then bytes.getD (j - dst) 0 else blk j

/-- Device location of the block holding the record of inode number
`inum`: `(fs.inode_base + self.inum * INODE_SIZE) / BLOCK_SIZE`. -/
def recBlk (cfg : FsConfig) (ino : Inode) : Nat :=
  (cfg.inode_base + ino.inum * INODE_SIZE) / BLOCK_SIZE

/-- Byte offset of the record inside that block:
`(fs.inode_base + self.inum * INODE_SIZE) % BLOCK_SIZE`. -/
def recOff (cfg : FsConfig) (ino : Inode) : Nat :=
  (cfg.inode_base + ino.inum * INODE_SIZE) % BLOCK_SIZE

/-- Codec decode `Inode::read_inode` (inode.rs lines 51-70): reads the record block and
refreshes `dirtype`, `size`, `single`, `double` from the four consecutive
8-byte fields; the two pointers are unconditionally rebuilt as `Some`. -/
def read_inode (cfg : FsConfig) (s : FsState) (ino : Inode) : Inode :=
  let buf := s.disk (recBlk cfg ino)
  let bo := recOff cfg ino
  { ino with
    dirtype := decode8 buf bo
    size := decode8 buf (bo + 8)
    single := some (decode8 buf (bo + 16))
    double := some (decode8 buf (bo + 24)) }

/-- The refresh never changes the inode number. -/
lemma read_inode_inum (cfg : FsConfig) (s : FsState) (ino : Inode) :
    (read_inode cfg s ino).inum = ino.inum := by
  simp only [read_inode]

/-- The refreshed size is the decoded size field of the record block. -/
lemma read_inode_size (cfg : FsConfig) (s : FsState) (ino : Inode) :
    (read_inode cfg s ino).size = decode8 (s.disk (recBlk cfg ino)) (recOff cfg ino + 8) := by
  simp only [read_inode]

/-- Entry decode `Inode::parse_entry` (inode.rs lines 108-116). -/
def parse_entry (raw : Nat → Nat) (index : Nat) : Nat :=
  decode8 raw (index * 8)

/-- Codec encode `Inode::write_inode` (inode.rs lines 118-141): read-modify-write of the
record block.  `self.single.unwrap()` / `self.double.unwrap()` panic when a
pointer is unset, modelled as `none`. -/
def write_inode (cfg : FsConfig) (s : FsState) (ino : Inode) : Option FsState :=
  match ino.single, ino.double with
  | some sg, some db =>
    let blk := recBlk cfg ino
    let bo := recOff cfg ino
    let buf := s.disk blk
    let buf := storeLE buf bo ino.dirtype 8
    let buf := storeLE buf (bo + 8) ino.size 8
    let buf := storeLE buf (bo + 16) sg 8
    let buf := storeLE buf (bo + 24) db 8
    some { s with disk := updateDisk s.disk blk buf }
  | _, _ => none

/-- Resolver `Inode::get_or_alloc_page` (inode.rs lines 144-186).  The capacity
check panics with "Maximum file size exceeded!" when
`num >= LIST_SIZE + 1`.  After the `read_inode` refresh both pointers are
`some`, so the two `is_none` allocation branches (kept verbatim below, the
allocator modelled by `nextFree`) can never run.  The final
`if need_update { self.write_inode(); }` of the source calls the async
`write_inode` without `await!`, dropping the future, so no device write
happens on any path; accordingly the returned state differs from the
input state only where the (dead) allocation branches would change it. -/
def get_or_alloc_page (cfg : FsConfig) (s : FsState) (ino : Inode) (num : Nat) :
    Except FsErr (Nat × Inode × FsState) :=
  if LIST_SIZE + 1 ≤ num then .error .FileTooLarge else
  let ino1 := read_inode cfg s ino
  if num = 0 then
    let p :=
      if ino1.single.isNone then
        ({ ino1 with single := some s.nextFree }, { s with nextFree := s.nextFree + 1 })
      else (ino1, s)
    .ok (p.1.single.getD 0, p.1, p.2)
  else
    let index := num - 1
    let p :=
      if ino1.double.isNone then
        ({ ino1 with double := some s.nextFree }, { s with nextFree := s.nextFree + 1 })
      else (ino1, s)
    let entry := parse_entry (p.2.disk (cfg.data_base + p.1.double.getD 0 * BLOCK_SIZE)) index
    .ok (entry, p.1, p.2)

/-- Resolver `Inode::get_page` (inode.rs lines 188-205): the read-only variant.
The guard `num * BLOCK_SIZE >= self.size` (checked against the size of the
inode as passed, before the refresh) panics with "Page does not exist.".
For `num == 0` the source returns the literal `0`, not the direct pointer;
for `num >= 1` it decodes entry `num - 1` of the indirection block.  The
refreshed inode is returned alongside, mirroring the refresh the source
performs through `self`. -/
def get_page (cfg : FsConfig) (s : FsState) (ino : Inode) (num : Nat) :
    Except FsErr (Nat × Inode) :=
  if ino.size ≤ num * BLOCK_SIZE then .error .PageNotAllocated else
  let ino1 := read_inode cfg s ino
  if num = 0 then
    .ok (0, ino1)
  else
    let index := num - 1
    .ok (parse_entry (s.disk (cfg.data_base + ino1.double.getD 0 * BLOCK_SIZE)) index, ino1)

/-- Loop body of `Inode::write` (inode.rs lines 215-249), by recursion on
the remaining iteration count (`remaining + i = blocks_to_act_on` at the
top call).  Each iteration resolves the page, reads the block at
`fs.data_base + page * BLOCK_SIZE`, copies `num_bytes` of `data` into it
at `block_offset`, and — as in the source — writes the modified block back
at device location `offset`, the byte-offset argument of `write`.  The
returned trace lists `(start + i, block_offset, num_bytes)` per
iteration. -/
def writeLoop (cfg : FsConfig) (data : List Nat) (offset start blocks : Nat) :
    Nat → Nat → Nat → Nat → Inode → FsState →
    Except FsErr (Nat × Inode × FsState × List (Nat × Nat × Nat))
  | 0, _, _, written, ino, s => .ok (written, ino, s, [])
  | Nat.succ r, i, block_offset, written, ino, s =>
    let bo := if block_offset ≠ 0 ∧ 0 < i then 0 else block_offset
    let num_bytes := if i = blocks - 1 then data.length - written else BLOCK_SIZE - bo
    match get_or_alloc_page cfg s ino (start + i) with
    | .error e => .error e
    | .ok (page, ino2, s2) =>
      let pg_offset := cfg.data_base + page * BLOCK_SIZE
      let disk_page := s2.disk pg_offset
      let disk_page2 := blit disk_page bo ((data.drop written).take num_bytes)
      let s3 : FsState := { s2 with disk := updateDisk s2.disk offset disk_page2 }
      match writeLoop cfg data offset start blocks r (i + 1) bo (written + num_bytes) ino2 s3 with
      | .ok (w, ino3, s4, tr) => .ok (w, ino3, s4, (start + i, bo, num_bytes) :: tr)
      | .error e => .error e

/-- Engine `Inode::write` (inode.rs lines 207-258): span decomposition, per-block
read-modify-write, then the in-memory size update
`if self.size < last_byte { self.size = last_byte }`.  No metadata
write-back happens after the loop in the source. -/
def write (cfg : FsConfig) (s : FsState) (ino : Inode) (offset : Nat) (data : List Nat) :
    Except FsErr (Nat × Inode × FsState × List (Nat × Nat × Nat)) :=
  let block_offset := offset % BLOCK_SIZE
  let start := offset / BLOCK_SIZE
  let blocks := ceil_div (block_offset + data.length) BLOCK_SIZE
  match writeLoop cfg data offset start blocks blocks 0 block_offset 0 ino s with
  | .ok (written, ino1, s1, tr) =>
    let last_byte := offset + written
    let ino2 := if ino1.size < last_byte then { ino1 with size := last_byte } else ino1
    .ok (written, ino2, s1, tr)
  | .error e => .error e

/-- Loop body of `Inode::read` (inode.rs lines 266-297), same span
arithmetic as the write loop; each iteration resolves the page with
`get_page`, reads the block at `fs.data_base + page * BLOCK_SIZE` and
copies `num_bytes` from `block_offset` into the output.  The refreshed
inode is threaded, mirroring the refresh through `self`. -/
def readLoop (cfg : FsConfig) (offset start blocks len : Nat) :
    Nat → Nat → Nat → Nat → Inode → FsState →
    Except FsErr (List Nat × Nat × Inode × List (Nat × Nat × Nat))
  | 0, _, _, rd, ino, _ => .ok ([], rd, ino, [])
  | Nat.succ r, i, block_offset, rd, ino, s =>
    let bo := if block_offset ≠ 0 ∧ 0 < i then 0 else block_offset
    let num_bytes := if i = blocks - 1 then len - rd else BLOCK_SIZE - bo
    match get_page cfg s ino (start + i) with
    | .error e => .error e
    | .ok (page, ino2) =>
      let pg_offset := cfg.data_base + page * BLOCK_SIZE
      let disk_page := s.disk pg_offset
      let chunk := (List.range num_bytes).map fun j => disk_page (bo + j)
      match readLoop cfg offset start blocks len r (i + 1) bo (rd + num_bytes) ino2 s with
      | .ok (bs, rdF, inoF, tr) => .ok (chunk ++ bs, rdF, inoF, (start + i, bo, num_bytes) :: tr)
      | .error e => .error e

/-- Engine `Inode::read` (inode.rs lines 260-300): `len` is the length of the
caller's buffer; the returned list is the bytes copied into it (the loop
fills it completely on success). -/
def read (cfg : FsConfig) (s : FsState) (ino : Inode) (offset len : Nat) :
    Except FsErr (List Nat × Nat × Inode × List (Nat × Nat × Nat)) :=
  let block_offset := offset % BLOCK_SIZE
  let start := offset / BLOCK_SIZE
  let blocks := ceil_div (block_offset + len) BLOCK_SIZE
  readLoop cfg offset start blocks len blocks 0 block_offset 0 ino s

/-- Pure recomputation of the control values of the write/read loop:
iteration `i` contributes `(start + i, block_offset, num_bytes)` with the
identical arithmetic the loops use. -/
def planList (n blocks start : Nat) : Nat → Nat → Nat → Nat → List (Nat × Nat × Nat)
  | 0, _, _, _ => []
  | Nat.succ r, i, block_offset, written =>
    let bo := if block_offset ≠ 0 ∧ 0 < i then 0 else block_offset
    let nb := if i = blocks - 1 then n - written else BLOCK_SIZE - bo
    (start + i, bo, nb) :: planList n blocks start r (i + 1) bo (written + nb)

/-! Observation helpers: total projections of the operation results, used
to state properties without comparing whole states (whose `disk` field is
a function). -/

/-- Physical block number returned by the read-only resolver. -/
def get_page_result (cfg : FsConfig) (s : FsState) (ino : Inode) (num : Nat) :
    Except FsErr Nat :=
  match get_page cfg s ino num with
  | .ok (p, _) => .ok p
  | .error e => .error e

/-- Bytes delivered by `read`. -/
def readBytes (cfg : FsConfig) (s : FsState) (ino : Inode) (offset len : Nat) :
    Except FsErr (List Nat) :=
  match read cfg s ino offset len with
  | .ok (bs, _, _, _) => .ok bs
  | .error e => .error e

/-- Per-block trace of a successful `write`. -/
def writeTrace (cfg : FsConfig) (s : FsState) (ino : Inode) (offset : Nat) (data : List Nat) :
    Option (List (Nat × Nat × Nat)) :=
  match write cfg s ino offset data with
  | .ok (_, _, _, tr) => some tr
  | .error _ => none

/-- Per-block trace of a successful `read`. -/
def readTrace (cfg : FsConfig) (s : FsState) (ino : Inode) (offset len : Nat) :
    Option (List (Nat × Nat × Nat)) :=
  match read cfg s ino offset len with
  | .ok (_, _, _, tr) => some tr
  | .error _ => none

/-- Byte `j` of the block at device location `loc` after a `write`
(unchanged input state if the write fails). -/
def diskByteAfterWrite (cfg : FsConfig) (s : FsState) (ino : Inode) (offset : Nat)
    (data : List Nat) (loc j : Nat) : Nat :=
  match write cfg s ino offset data with
  | .ok (_, _, s1, _) => s1.disk loc j
  | .error _ => s.disk loc j

/-- The in-memory inode a successful `write` returns. -/
def inodeAfterWrite (cfg : FsConfig) (s : FsState) (ino : Inode) (offset : Nat)
    (data : List Nat) : Option Inode :=
  match write cfg s ino offset data with
  | .ok (_, ino1, _, _) => some ino1
  | .error _ => none

/-- The `size` field the on-disk record decodes to after a successful
`write` (re-read through the codec). -/
def recordSizeAfterWrite (cfg : FsConfig) (s : FsState) (ino : Inode) (offset : Nat)
    (data : List Nat) : Option Nat :=
  match write cfg s ino offset data with
  | .ok (_, ino1, s1, _) => some (read_inode cfg s1 ino1).size
  | .error _ => none

/-- Bytes a `read` returns when issued right after a successful `write`,
on the written state and inode. -/
def readAfterWrite (cfg : FsConfig) (s : FsState) (ino : Inode) (offset : Nat)
    (data : List Nat) (roffset rlen : Nat) : Option (Except FsErr (List Nat)) :=
  match write cfg s ino offset data with
  | .ok (_, ino1, s1, _) => some (readBytes cfg s1 ino1 roffset rlen)
  | .error _ => none

/-- Byte `j` at device location `loc` after `get_or_alloc_page`. -/
def gapDiskByte (cfg : FsConfig) (s : FsState) (ino : Inode) (num loc j : Nat) : Nat :=
  match get_or_alloc_page cfg s ino num with
  | .ok (_, _, s1) => s1.disk loc j
  | .error _ => s.disk loc j

/-- Allocator counter after `get_or_alloc_page`. -/
def gapNextFree (cfg : FsConfig) (s : FsState) (ino : Inode) (num : Nat) : Nat :=
  match get_or_alloc_page cfg s ino num with
  | .ok (_, _, s1) => s1.nextFree
  | .error _ => s.nextFree

/-- Encode an inode with `write_inode`, then decode the written state back
with `read_inode`: the codec round trip of spec §8. -/
def codecRoundTrip (cfg : FsConfig) (s : FsState) (ino : Inode) : Option Inode :=
  (write_inode cfg s ino).map fun s1 => read_inode cfg s1 ino

/-- Specification of the span decomposition (spec §4.3 step 1-2): the
trace has `ceil((o % block_size + n) / block_size)` entries; entry `p`
acts on logical page `start + p`, starts at the skew on the first block
and at `0` afterwards, and transfers `block_size - skew` bytes except on
the last block, which takes the remaining byte count. -/
def spanOk (skew n start : Nat) (tr : List (Nat × Nat × Nat)) : Prop :=
  tr.length = ceil_div (skew + n) BLOCK_SIZE ∧
  ∀ p, p < tr.length →
    (tr.getD p (0, 0, 0)).1 = start + p ∧
    (tr.getD p (0, 0, 0)).2.1 = (if p = 0 then skew else 0) ∧
    (tr.getD p (0, 0, 0)).2.2 =
      (if p = tr.length - 1
       then n - ((tr.take p).map (fun e => e.2.2)).sum
       else BLOCK_SIZE - (if p = 0 then skew else 0))

/-! Basic reduction lemmas. -/

/-- After the refresh both pointer fields are `some`, so the `is_none`
allocation branches of `get_or_alloc_page` are dead: the function reduces
to a pure lookup that leaves the state untouched. -/
lemma gap_eq (cfg : FsConfig) (s : FsState) (ino : Inode) (num : Nat) :
    get_or_alloc_page cfg s ino num =
      if LIST_SIZE + 1 ≤ num then .error .FileTooLarge
      else if num = 0 then .ok ((read_inode cfg s ino).single.getD 0, read_inode cfg s ino, s)
      else .ok (parse_entry
          (s.disk (cfg.data_base + (read_inode cfg s ino).double.getD 0 * BLOCK_SIZE))
          (num - 1), read_inode cfg s ino, s) := rfl

/-- Reduction of `get_page` with the dead branches eliminated. -/
lemma get_page_eq (cfg : FsConfig) (s : FsState) (ino : Inode) (num : Nat) :
    get_page cfg s ino num =
      if ino.size ≤ num * BLOCK_SIZE then .error .PageNotAllocated
      else if num = 0 then .ok (0, read_inode cfg s ino)
      else .ok (parse_entry
          (s.disk (cfg.data_base + (read_inode cfg s ino).double.getD 0 * BLOCK_SIZE))
          (num - 1), read_inode cfg s ino) := rfl

/-- A successful `get_or_alloc_page` returns the input state unchanged and
the refreshed inode. -/
lemma gap_ok {cfg : FsConfig} {s : FsState} {ino : Inode} {num p : Nat} {i1 : Inode}
    {s1 : FsState} (h : get_or_alloc_page cfg s ino num = .ok (p, i1, s1)) :
    s1 = s ∧ i1 = read_inode cfg s ino := by
  rw [gap_eq] at h
  by_cases h1 : LIST_SIZE + 1 ≤ num
  · simp [h1] at h
  · by_cases h2 : num = 0 <;> simp [h1, h2] at h <;> exact ⟨h.2.2.symm, h.2.1.symm⟩

/-- C10: decoding an on-disk inode record always produces `Some` for both
the direct and the indirect pointer, whatever the byte content of the
record: the on-disk format cannot represent the unset state, and a
metadata re-read never leaves a pointer unset. -/
theorem c10_decoded_pointers_always_set (cfg : FsConfig) (s : FsState) (ino : Inode) :
    (read_inode cfg s ino).single
        = some (decode8 (s.disk (recBlk cfg ino)) (recOff cfg ino + 16)) ∧
    (read_inode cfg s ino).double
        = some (decode8 (s.disk (recBlk cfg ino)) (recOff cfg ino + 24)) :=
  ⟨rfl, rfl⟩

/-- C8: `get_or_alloc_page` fails with `FileTooLarge` exactly when the
requested logical page number is at least `LIST_SIZE + 1`, i.e. when the
entry index `num - 1` reaches the indirection-block capacity; page
`LIST_SIZE` itself passes the capacity check. -/
theorem c8_file_too_large_iff (cfg : FsConfig) (s : FsState) (ino : Inode) (num : Nat) :
    get_or_alloc_page cfg s ino num = .error .FileTooLarge ↔ LIST_SIZE + 1 ≤ num := by
  rw [gap_eq]
  split
  · simp_all
  · split <;> simp_all

/-- C4 (code bug): `get_or_alloc_page` never writes anything to the device
and never consumes an allocator block: every device byte and the allocator
counter are unchanged on every path.  The source's `read_inode` refresh
repopulates both pointers as `Some` before the `is_none` checks, so the
dirty path is unreachable, and the `self.write_inode()` call in it drops
the un-awaited future — no allocated pointer is ever persisted before the
call returns. -/
theorem c4_no_metadata_writeback (cfg : FsConfig) (s : FsState) (ino : Inode)
    (num loc j : Nat) :
    gapDiskByte cfg s ino num loc j = s.disk loc j ∧
    gapNextFree cfg s ino num = s.nextFree := by
  by_cases h1 : LIST_SIZE + 1 ≤ num
  · constructor <;> simp [gapDiskByte, gapNextFree, gap_eq, h1]
  · by_cases h2 : num = 0 <;>
      constructor <;> simp [gapDiskByte, gapNextFree, gap_eq, h1, h2]

/-- C5 (code bug): whenever the size guard passes, resolving logical page
0 through the read-only resolver returns the literal physical block 0,
regardless of the inode's stored `direct_pointer`; the claimed behaviour
(returning the block number held in `direct_pointer`) is not what the
code does. -/
theorem c5_page_zero_resolves_to_block_zero (cfg : FsConfig) (s : FsState) (ino : Inode)
    (h : 0 < ino.size) :
    get_page_result cfg s ino 0 = .ok 0 := by
  have hns : ino.size ≠ 0 := Nat.pos_iff_ne_zero.mp h
  simp [get_page_result, get_page_eq, hns]

/-- Witness for C5 at a concrete input: an inode whose direct pointer is
`some 5` still resolves page 0 to block 0. -/
theorem c5_page_zero_resolves_to_block_zero_witness :
    0 < (⟨0, 0, some 5, none, 10⟩ : Inode).size ∧
    get_page_result ⟨0, 0⟩ ⟨fun _ _ => 0, 0⟩ ⟨0, 0, some 5, none, 10⟩ 0 = .ok 0 :=
  ⟨by decide, c5_page_zero_resolves_to_block_zero _ _ _ (by decide)⟩

/-- C7 (amended): the read-only resolver fails with `PageNotAllocated`
exactly when `num * BLOCK_SIZE ≥ inode.size` — the check is page-granular
— and consequently a read of a nonempty buffer fails whenever the first
spanned page starts at or beyond the recorded size
(`(offset / BLOCK_SIZE) * BLOCK_SIZE ≥ inode.size`).  A read at a byte
offset that is merely `≥ size` but lands inside a page whose start lies
below `size` does not fail (see the counterexample). -/
theorem c7_failure_is_page_granular (cfg cfg2 : FsConfig) (s s2 : FsState)
    (ino ino2 : Inode) (num offset n : Nat) (hn : 0 < n)
    (ho : ino2.size ≤ offset / BLOCK_SIZE * BLOCK_SIZE) :
    (get_page cfg s ino num = .error .PageNotAllocated ↔ ino.size ≤ num * BLOCK_SIZE) ∧
    readBytes cfg2 s2 ino2 offset n = .error .PageNotAllocated := by
  constructor
  · rw [get_page_eq]
    split
    · simp_all
    · split <;> simp_all
  · unfold readBytes read
    have hb : 0 < ceil_div (offset % BLOCK_SIZE + n) BLOCK_SIZE := by
      unfold ceil_div BLOCK_SIZE
      omega
    obtain ⟨r, hr⟩ : ∃ r, ceil_div (offset % BLOCK_SIZE + n) BLOCK_SIZE = r + 1 :=
      ⟨_, (Nat.succ_pred_eq_of_pos hb).symm⟩
    simp [hr, readLoop, get_page_eq, ho]

/-- Witness for C7 at concrete inputs: page 0 of an empty inode is
unallocated, and a 1-byte read at the block-aligned offset 4096 of an
empty inode fails with `PageNotAllocated`. -/
theorem c7_failure_is_page_granular_witness :
    0 < 1 ∧
    (⟨0, 0, none, none, 0⟩ : Inode).size ≤ 4096 / BLOCK_SIZE * BLOCK_SIZE ∧
    ((get_page ⟨0, 0⟩ ⟨fun _ _ => 0, 0⟩ ⟨0, 0, none, none, 0⟩ 0 = .error .PageNotAllocated ↔
        (⟨0, 0, none, none, 0⟩ : Inode).size ≤ 0 * BLOCK_SIZE) ∧
      readBytes ⟨0, 0⟩ ⟨fun _ _ => 0, 0⟩ ⟨0, 0, none, none, 0⟩ 4096 1
        = .error .PageNotAllocated) :=
  ⟨by decide, by decide,
    c7_failure_is_page_granular _ _ _ _ _ _ 0 _ _ (by decide) (by decide)⟩

/-- Counterexample for C7 as stated: the inode records size 10, the read
offset 12 is `≥ size`, yet the 1-byte read succeeds (returning a byte of
block 0), because the failure check is per spanned page
(`0 * BLOCK_SIZE < 10`), not per byte offset. -/
theorem c7_read_past_size_succeeds :
    (⟨0, 0, none, none, 10⟩ : Inode).size ≤ 12 ∧
    readBytes ⟨0, 0⟩ ⟨fun _ _ => 0, 0⟩ ⟨0, 0, none, none, 10⟩ 12 1 = .ok [0] :=
  ⟨by decide, rfl⟩

/-! Codec lemmas: little-endian store/decode. -/

/-- Decoding only looks at the bytes of its region. -/
lemma leDecode_congr : ∀ (k : Nat) (f g : Nat → Nat) (st : Nat),
    (∀ j, st ≤ j → j < st + k → f j = g j) → leDecode k f st = leDecode k g st
  | 0, _, _, _, _ => rfl
  | k + 1, f, g, st, h => by
    unfold leDecode
    rw [h st (Nat.le_refl st) (by omega),
      leDecode_congr k f g (st + 1) (fun j h1 h2 => h j (by omega) (by omega))]

/-- A store leaves bytes outside its region unchanged. -/
lemma storeLE_out {buf : Nat → Nat} {st x k j : Nat} (h : j < st ∨ st + k ≤ j) :
    storeLE buf st x k j = buf j := by
  have hc : ¬ (st ≤ j ∧ j < st + k) := by omega
  simp [storeLE, hc]

/-- Bytes inside the stored region are the little-endian bytes of `x`. -/
lemma storeLE_in {buf : Nat → Nat} {st x k i : Nat} (h : i < k) :
    storeLE buf st x k (st + i) = x / 256 ^ i % 256 := by
  have hc : st ≤ st + i ∧ st + i < st + k := by omega
  simp [storeLE, hc, Nat.add_sub_cancel_left]

/-- Horner recombination: decoding `k` little-endian bytes of `x` yields
`x % 256 ^ k`. -/
lemma leDecode_bytes : ∀ (k x st : Nat) (f : Nat → Nat),
    (∀ i, i < k → f (st + i) = x / 256 ^ i % 256) →
    leDecode k f st = x % 256 ^ k
  | 0, x, _, _, _ => by simp [leDecode, Nat.mod_one]
  | k + 1, x, st, f, h => by
    unfold leDecode
    have h0 : f st = x % 256 := by simpa using h 0 (Nat.succ_pos k)
    have ht : leDecode k f (st + 1) = x / 256 % 256 ^ k := by
      apply leDecode_bytes k (x / 256) (st + 1) f
      intro i hi
      have hh := h (i + 1) (by omega)
      rw [show st + (i + 1) = st + 1 + i by omega] at hh
      rw [hh, Nat.div_div_eq_div_mul, ← pow_succ']
    have hmm : x % 256 ^ (k + 1) = x % 256 + 256 * (x / 256 % 256 ^ k) := by
      have hd1 : x % (256 * 256 ^ k) % 256 = x % 256 :=
        Nat.mod_mod_of_dvd x ⟨256 ^ k, rfl⟩
      have hd2 : x % (256 * 256 ^ k) / 256 = x / 256 % 256 ^ k :=
        Nat.mod_mul_right_div_self x 256 (256 ^ k)
      rw [pow_succ', ← hd1, ← hd2]
      generalize x % (256 * 256 ^ k) = y
      omega
    rw [h0, ht, hmm]

/-- Decoding a region strictly below a store is unaffected by it. -/
lemma decode8_storeLE_above {buf : Nat → Nat} {st st2 x k : Nat} (h : st + 8 ≤ st2) :
    decode8 (storeLE buf st2 x k) st = decode8 buf st := by
  unfold decode8
  exact leDecode_congr 8 _ _ st (fun j h1 h2 => storeLE_out (Or.inl (by omega)))

/-- Decoding exactly the stored region recovers `x % 2 ^ 64`. -/
lemma decode8_storeLE_same (buf : Nat → Nat) (st x : Nat) :
    decode8 (storeLE buf st x 8) st = x % 2 ^ 64 := by
  unfold decode8
  have h : (256 : Nat) ^ 8 = 2 ^ 64 := by norm_num
  rw [← h]
  exact leDecode_bytes 8 x st _ (fun i hi => storeLE_in hi)

/-- The four fields written by `write_inode` decode back, each modulo the
64-bit width of `usize`. -/
lemma decode8_quad (B : Nat → Nat) (bo d sz a b : Nat) :
    decode8 (storeLE (storeLE (storeLE (storeLE B bo d 8) (bo + 8) sz 8) (bo + 16) a 8)
        (bo + 24) b 8) bo = d % 2 ^ 64 ∧
    decode8 (storeLE (storeLE (storeLE (storeLE B bo d 8) (bo + 8) sz 8) (bo + 16) a 8)
        (bo + 24) b 8) (bo + 8) = sz % 2 ^ 64 ∧
    decode8 (storeLE (storeLE (storeLE (storeLE B bo d 8) (bo + 8) sz 8) (bo + 16) a 8)
        (bo + 24) b 8) (bo + 16) = a % 2 ^ 64 ∧
    decode8 (storeLE (storeLE (storeLE (storeLE B bo d 8) (bo + 8) sz 8) (bo + 16) a 8)
        (bo + 24) b 8) (bo + 24) = b % 2 ^ 64 := by
  refine ⟨?_, ?_, ?_, ?_⟩
  · calc decode8 (storeLE (storeLE (storeLE (storeLE B bo d 8) (bo + 8) sz 8) (bo + 16) a 8)
          (bo + 24) b 8) bo
        = decode8 (storeLE (storeLE (storeLE B bo d 8) (bo + 8) sz 8) (bo + 16) a 8) bo :=
          decode8_storeLE_above (by omega)
      _ = decode8 (storeLE (storeLE B bo d 8) (bo + 8) sz 8) bo :=
          decode8_storeLE_above (by omega)
      _ = decode8 (storeLE B bo d 8) bo := decode8_storeLE_above (by omega)
      _ = d % 2 ^ 64 := decode8_storeLE_same B bo d
  · calc decode8 (storeLE (storeLE (storeLE (storeLE B bo d 8) (bo + 8) sz 8) (bo + 16) a 8)
          (bo + 24) b 8) (bo + 8)
        = decode8 (storeLE (storeLE (storeLE B bo d 8) (bo + 8) sz 8) (bo + 16) a 8)
            (bo + 8) := decode8_storeLE_above (by omega)
      _ = decode8 (storeLE (storeLE B bo d 8) (bo + 8) sz 8) (bo + 8) :=
          decode8_storeLE_above (by omega)
      _ = sz % 2 ^ 64 := decode8_storeLE_same _ (bo + 8) sz
  · calc decode8 (storeLE (storeLE (storeLE (storeLE B bo d 8) (bo + 8) sz 8) (bo + 16) a 8)
          (bo + 24) b 8) (bo + 16)
        = decode8 (storeLE (storeLE (storeLE B bo d 8) (bo + 8) sz 8) (bo + 16) a 8)
            (bo + 16) := decode8_storeLE_above (by omega)
      _ = a % 2 ^ 64 := decode8_storeLE_same _ (bo + 16) a
  · exact decode8_storeLE_same _ (bo + 24) b

/-- C3 (amended): for every inode whose direct and indirect pointers are
both set and whose numeric fields fit in `usize` (64 bits, as the source's
types guarantee), encoding the record with `write_inode` and decoding the
written state back with `read_inode` recovers the inode exactly. -/
theorem c3_roundtrip_with_set_pointers (cfg : FsConfig) (s : FsState) (ino : Inode)
    (a b : Nat) (hs : ino.single = some a) (hd : ino.double = some b)
    (h1 : ino.dirtype < 2 ^ 64) (h2 : ino.size < 2 ^ 64)
    (h3 : a < 2 ^ 64) (h4 : b < 2 ^ 64) :
    codecRoundTrip cfg s ino = some ino := by
  obtain ⟨q1, q2, q3, q4⟩ := decode8_quad (s.disk (recBlk cfg ino)) (recOff cfg ino)
    ino.dirtype ino.size a b
  simp only [codecRoundTrip, write_inode, hs, hd, Option.map_some']
  refine congrArg some ?_
  simp only [read_inode, updateDisk, eq_self_iff_true, if_true]
  rw [q1, q2, q3, q4, Nat.mod_eq_of_lt h1, Nat.mod_eq_of_lt h2,
    Nat.mod_eq_of_lt h3, Nat.mod_eq_of_lt h4]
  cases ino with
  | mk inum dirtype single double size =>
    simp only [Inode.mk.injEq, and_true, true_and]
    simp only [Inode.single] at hs
    simp only [Inode.double] at hd
    exact ⟨hs.symm, hd.symm⟩

/-- Witness for C3 at a concrete inode with both pointers set. -/
theorem c3_roundtrip_with_set_pointers_witness :
    (⟨0, 1, some 2, some 3, 4⟩ : Inode).single = some 2 ∧
    (⟨0, 1, some 2, some 3, 4⟩ : Inode).double = some 3 ∧
    codecRoundTrip ⟨0, 0⟩ ⟨fun _ _ => 0, 0⟩ ⟨0, 1, some 2, some 3, 4⟩
      = some ⟨0, 1, some 2, some 3, 4⟩ :=
  ⟨rfl, rfl, c3_roundtrip_with_set_pointers _ _ _ 2 3 rfl rfl
    (by norm_num) (by norm_num) (by norm_num) (by norm_num)⟩

/-- Counterexample for C3 as stated: an inode with unset pointers does not
round-trip — `write_inode` hits `unwrap()` on the unset pointer (models a
panic), so no decode of an encoding can return it, and indeed decoding any
record always yields set pointers. -/
theorem c3_unset_pointer_no_roundtrip :
    codecRoundTrip ⟨0, 0⟩ ⟨fun _ _ => 0, 0⟩ ⟨0, 7, none, none, 5⟩ = none ∧
    codecRoundTrip ⟨0, 0⟩ ⟨fun _ _ => 0, 0⟩ ⟨0, 7, none, none, 5⟩
      ≠ some ⟨0, 7, none, none, 5⟩ :=
  ⟨rfl, by decide⟩

/-! Write-loop invariants. -/

/-- The write loop mutates the device only at location `offset` (the byte
offset argument of `write`): every other location keeps its block. -/
lemma writeLoop_disk (cfg : FsConfig) (data : List Nat) (offset : Nat) {start blocks : Nat} :
    ∀ {r i bo w : Nat} {ino : Inode} {s : FsState} {wr : Nat} {ino1 : Inode} {s1 : FsState}
      {tr : List (Nat × Nat × Nat)},
      writeLoop cfg data offset start blocks r i bo w ino s = .ok (wr, ino1, s1, tr) →
      ∀ loc, loc ≠ offset → s1.disk loc = s.disk loc := by
  intro r
  induction r with
  | zero =>
    intro i bo w ino s wr ino1 s1 tr h loc hloc
    simp only [writeLoop, Except.ok.injEq, Prod.mk.injEq] at h
    obtain ⟨-, -, hs, -⟩ := h
    rw [← hs]
  | succ r ih =>
    intro i bo w ino s wr ino1 s1 tr h loc hloc
    simp only [writeLoop] at h
    split at h
    · exact absurd h (by simp)
    · rename_i page ino2 s2 hg
      split at h
      · rename_i w2 ino3 s4 tr2 hrec
        simp only [Except.ok.injEq, Prod.mk.injEq] at h
        obtain ⟨-, -, hs, -⟩ := h
        rw [← hs, ih hrec loc hloc]
        obtain ⟨hss, -⟩ := gap_ok hg
        rw [hss]
        simp [updateDisk, hloc]
      · exact absurd h (by simp)

/-- Size/inum tracking through the write loop: as long as the loop runs at
least once and the data-block writes (all at location `offset`) do not hit
the inode's record block, the inode the loop returns carries the size
decoded from the unchanged record block, and its `inum` is preserved. -/
lemma writeLoop_size (cfg : FsConfig) (data : List Nat) (offset : Nat)
    {start blocks : Nat} (n0 : Nat)
    (hoff : offset ≠ (cfg.inode_base + n0 * INODE_SIZE) / BLOCK_SIZE) :
    ∀ {r i bo w : Nat} {ino : Inode} {s : FsState} {wr : Nat} {ino1 : Inode} {s1 : FsState}
      {tr : List (Nat × Nat × Nat)},
      ino.inum = n0 →
      writeLoop cfg data offset start blocks r i bo w ino s = .ok (wr, ino1, s1, tr) →
      (0 < r →
        ino1.size = decode8 (s.disk ((cfg.inode_base + n0 * INODE_SIZE) / BLOCK_SIZE))
          ((cfg.inode_base + n0 * INODE_SIZE) % BLOCK_SIZE + 8) ∧ ino1.inum = n0) ∧
      (r = 0 → ino1 = ino ∧ wr = w) := by
  intro r
  induction r with
  | zero =>
    intro i bo w ino s wr ino1 s1 tr hn h
    simp only [writeLoop, Except.ok.injEq, Prod.mk.injEq] at h
    obtain ⟨hw, hi, -, -⟩ := h
    exact ⟨fun h0 => absurd h0 (by omega), fun _ => ⟨hi.symm, hw.symm⟩⟩
  | succ r ih =>
    intro i bo w ino s wr ino1 s1 tr hn h
    simp only [writeLoop] at h
    split at h
    · exact absurd h (by simp)
    · rename_i page ino2 s2 hg
      split at h
      · rename_i w2 ino3 s4 tr2 hrec
        simp only [Except.ok.injEq, Prod.mk.injEq] at h
        obtain ⟨-, hi, -, -⟩ := h
        obtain ⟨hss, hii⟩ := gap_ok hg
        have hino2size : ino2.size
            = decode8 (s.disk ((cfg.inode_base + n0 * INODE_SIZE) / BLOCK_SIZE))
              ((cfg.inode_base + n0 * INODE_SIZE) % BLOCK_SIZE + 8) := by
          rw [hii, read_inode_size]
          unfold recBlk recOff
          rw [hn]
        have hino2num : ino2.inum = n0 := by
          rw [hii, read_inode_inum, hn]
        have hrec2 := ih hino2num hrec
        refine ⟨fun _ => ?_, fun h0 => absurd h0 (by omega)⟩
        rcases Nat.eq_zero_or_pos r with hr | hr
        · obtain ⟨hi3, -⟩ := hrec2.2 hr
          rw [← hi, hi3]
          exact ⟨hino2size, hino2num⟩
        · obtain ⟨hi3, hn3⟩ := hrec2.1 hr
          rw [← hi]
          refine ⟨?_, hn3⟩
          rw [hi3]
          -- the recursive call's base state agrees with `s` on the record
          -- block: the data-block write lands at `offset ≠` record block
          simp only [updateDisk]
          rw [if_neg (fun hh => hoff hh.symm), hss]
      · exact absurd h (by simp)

/-- Pushing the size update of `write` through the conditional. -/
lemma size_update (ino0 : Inode) (v : Nat) :
    (if ino0.size < v then { ino0 with size := v } else ino0).size = max ino0.size v := by
  split
  · rename_i hl
    exact (Nat.max_eq_right (Nat.le_of_lt hl)).symm
  · rename_i hl
    exact (Nat.max_eq_left (Nat.not_lt.mp hl)).symm

/-- Unfolding of `write` as an equation usable for rewriting. -/
lemma write_eq (cfg : FsConfig) (s : FsState) (ino : Inode) (offset : Nat)
    (data : List Nat) :
    write cfg s ino offset data =
      match writeLoop cfg data offset (offset / BLOCK_SIZE)
          (ceil_div (offset % BLOCK_SIZE + data.length) BLOCK_SIZE)
          (ceil_div (offset % BLOCK_SIZE + data.length) BLOCK_SIZE)
          0 (offset % BLOCK_SIZE) 0 ino s with
      | .ok (written, ino1, s1, tr) =>
        .ok (written,
          if ino1.size < offset + written then { ino1 with size := offset + written }
          else ino1, s1, tr)
      | .error e => .error e := rfl

/-- Inversion of a successful `write`: the loop succeeded with the same
count, state and trace, and the returned inode is the loop's inode with
the size update applied. -/
lemma write_ok_inv {cfg : FsConfig} {s : FsState} {ino : Inode} {offset : Nat}
    {data : List Nat} {w : Nat} {ino1 : Inode} {s1 : FsState} {tr : List (Nat × Nat × Nat)}
    (hw : write cfg s ino offset data = .ok (w, ino1, s1, tr)) :
    ∃ ino0, writeLoop cfg data offset (offset / BLOCK_SIZE)
        (ceil_div (offset % BLOCK_SIZE + data.length) BLOCK_SIZE)
        (ceil_div (offset % BLOCK_SIZE + data.length) BLOCK_SIZE)
        0 (offset % BLOCK_SIZE) 0 ino s = .ok (w, ino0, s1, tr) ∧
      ino1 = (if ino0.size < offset + w then { ino0 with size := offset + w } else ino0) := by
  rw [write_eq] at hw
  split at hw
  · rename_i w0 ino0 s0 tr0 hwl
    simp only [Except.ok.injEq, Prod.mk.injEq] at hw
    obtain ⟨hw1, hw2, hw3, hw4⟩ := hw
    refine ⟨ino0, ?_, ?_⟩
    · rw [← hw1, ← hw3, ← hw4]
      exact hwl
    · rw [← hw2, hw1]
  · exact absurd hw (by simp)

/-- C2 (code bug): `write` writes every modified block back at device
location `offset` — the byte-offset argument of the call — and nowhere
else: any location other than `offset` keeps its bytes, including the
data-block location `data_base + physical_block_number * BLOCK_SIZE` of
the resolved page, which the claim says receives the block. -/
theorem c2_write_at_call_offset (cfg : FsConfig) (s : FsState) (ino : Inode)
    (offset : Nat) (data : List Nat) (loc j : Nat) (h : loc ≠ offset) :
    diskByteAfterWrite cfg s ino offset data loc j = s.disk loc j := by
  rcases hw : write cfg s ino offset data with e | ⟨w, ino1, s1, tr⟩
  · unfold diskByteAfterWrite
    rw [hw]
  · unfold diskByteAfterWrite
    rw [hw]
    show s1.disk loc j = s.disk loc j
    obtain ⟨ino0, hwl, -⟩ := write_ok_inv hw
    exact congrFun (writeLoop_disk cfg data offset hwl loc h) j

/-- Witness for C2: after writing one byte at offset 3, the data-block
location 8192 = data_base + 0 * BLOCK_SIZE of the resolved page 0 is
untouched (the block actually went to device location 3). -/
theorem c2_write_at_call_offset_witness :
    (8192 : Nat) ≠ 3 ∧
    diskByteAfterWrite ⟨0, 8192⟩ ⟨fun _ _ => 0, 0⟩ ⟨0, 0, none, none, 0⟩ 3 [7] 8192 3 = 0 :=
  ⟨by decide, (c2_write_at_call_offset _ _ _ _ _ _ _ (by decide)).trans rfl⟩

/-- C6 (amended): when the in-memory inode agrees with its on-disk record
size and the mislocated data-block writes (all at location `offset`) miss
the record block, a successful `write` of `w` bytes leaves the in-memory
size at `max previous_size (offset + w)` — but `write` does not persist
the updated record (see the counterexample). -/
theorem c6_size_is_max_in_memory (cfg : FsConfig) (s : FsState) (ino : Inode)
    (offset : Nat) (data : List Nat)
    (h1 : (read_inode cfg s ino).size = ino.size)
    (h2 : offset ≠ (cfg.inode_base + ino.inum * INODE_SIZE) / BLOCK_SIZE) :
    (match write cfg s ino offset data with
     | .ok (w, ino1, _, _) => ino1.size = max ino.size (offset + w)
     | .error _ => True) := by
  rcases hw : write cfg s ino offset data with e | ⟨w, ino1, s1, tr⟩
  · trivial
  · show ino1.size = max ino.size (offset + w)
    obtain ⟨ino0, hwl, hii⟩ := write_ok_inv hw
    have hsz := writeLoop_size cfg data offset ino.inum h2 rfl hwl
    rw [hii, size_update]
    rcases Nat.eq_zero_or_pos (ceil_div (offset % BLOCK_SIZE + data.length) BLOCK_SIZE)
      with hb | hb
    · obtain ⟨hi0, -⟩ := hsz.2 hb
      rw [hi0]
    · obtain ⟨hi0, -⟩ := hsz.1 hb
      rw [hi0]
      rw [read_inode_size] at h1
      unfold recBlk recOff at h1
      rw [h1]

/-- Witness for C6: writing one byte at offset 5000 to a fresh inode ends
with in-memory size `max 0 5001 = 5001`. -/
theorem c6_size_is_max_in_memory_witness :
    (read_inode ⟨0, 8192⟩ ⟨fun _ _ => 0, 0⟩ ⟨0, 0, none, none, 0⟩).size
        = (⟨0, 0, none, none, 0⟩ : Inode).size ∧
    (5000 : Nat) ≠ ((⟨0, 8192⟩ : FsConfig).inode_base
        + (⟨0, 0, none, none, 0⟩ : Inode).inum * INODE_SIZE) / BLOCK_SIZE ∧
    (match write ⟨0, 8192⟩ ⟨fun _ _ => 0, 0⟩ ⟨0, 0, none, none, 0⟩ 5000 [9] with
     | .ok (w, ino1, _, _) => ino1.size = max (⟨0, 0, none, none, 0⟩ : Inode).size (5000 + w)
     | .error _ => True) :=
  ⟨rfl, by decide,
    c6_size_is_max_in_memory ⟨0, 8192⟩ ⟨fun _ _ => 0, 0⟩ ⟨0, 0, none, none, 0⟩ 5000 [9]
      rfl (by decide)⟩

/-- Counterexample for C6 as stated: after the same write the in-memory
size is 5001, but the on-disk record still decodes to size 0 — `write`
never persists the updated inode record. -/
theorem c6_size_not_persisted :
    recordSizeAfterWrite ⟨0, 8192⟩ ⟨fun _ _ => 0, 0⟩ ⟨0, 0, none, none, 0⟩ 5000 [9]
      = some 0 ∧
    (inodeAfterWrite ⟨0, 8192⟩ ⟨fun _ _ => 0, 0⟩ ⟨0, 0, none, none, 0⟩ 5000 [9]).map
        Inode.size = some 5001 ∧
    (0 : Nat) ≠ 5001 :=
  ⟨rfl, rfl, by decide⟩

/-- C1 (code bug): write 1 byte (42) at offset 0 of a fresh inode on a
zeroed device with `data_base = 8192`, then read the same range back: the
read returns `[0]`, not `[42]`.  The written block went to device location
0 (= the byte offset), while the read fetches from
`data_base + 0 * BLOCK_SIZE = 8192` (and resolves page 0 to the literal
block 0), so the data does not round-trip. -/
theorem c1_write_then_read_loses_data :
    readAfterWrite ⟨0, 8192⟩ ⟨fun _ _ => 0, 0⟩ ⟨0, 0, none, none, 0⟩ 0 [42] 0 1
      = some (.ok [0]) ∧ ([0] : List Nat) ≠ [42] :=
  ⟨rfl, by decide⟩

/-! Span decomposition: the control values of the loops. -/

/-- Unfolding of `read`: it is exactly its loop. -/
lemma read_eq (cfg : FsConfig) (s : FsState) (ino : Inode) (offset len : Nat) :
    read cfg s ino offset len =
      readLoop cfg offset (offset / BLOCK_SIZE)
        (ceil_div (offset % BLOCK_SIZE + len) BLOCK_SIZE) len
        (ceil_div (offset % BLOCK_SIZE + len) BLOCK_SIZE)
        0 (offset % BLOCK_SIZE) 0 ino s := rfl

/-- The plan has exactly one entry per remaining iteration. -/
lemma planList_length (n blocks start : Nat) :
    ∀ (r i bo w : Nat), (planList n blocks start r i bo w).length = r
  | 0, _, _, _ => rfl
  | r + 1, i, bo, w => by
    simp only [planList, List.length_cons]
    rw [planList_length n blocks start r]

/-- The trace of a successful write loop is exactly the plan: the loop's
control arithmetic does not depend on device contents. -/
lemma writeLoop_trace (cfg : FsConfig) (data : List Nat) (offset : Nat)
    {start blocks : Nat} :
    ∀ {r i bo w : Nat} {ino : Inode} {s : FsState} {wr : Nat} {ino1 : Inode} {s1 : FsState}
      {tr : List (Nat × Nat × Nat)},
      writeLoop cfg data offset start blocks r i bo w ino s = .ok (wr, ino1, s1, tr) →
      tr = planList data.length blocks start r i bo w := by
  intro r
  induction r with
  | zero =>
    intro i bo w ino s wr ino1 s1 tr h
    simp only [writeLoop, Except.ok.injEq, Prod.mk.injEq] at h
    obtain ⟨-, -, -, ht⟩ := h
    rw [← ht]
    rfl
  | succ r ih =>
    intro i bo w ino s wr ino1 s1 tr h
    simp only [writeLoop] at h
    split at h
    · exact absurd h (by simp)
    · rename_i page ino2 s2 hg
      split at h
      · rename_i w2 ino3 s4 tr2 hrec
        simp only [Except.ok.injEq, Prod.mk.injEq] at h
        obtain ⟨-, -, -, ht⟩ := h
        rw [← ht, ih hrec]
        simp only [planList]
      · exact absurd h (by simp)

/-- The trace of a successful read loop is the same plan. -/
lemma readLoop_trace (cfg : FsConfig) (offset : Nat) {start blocks len : Nat} :
    ∀ {r i bo rd : Nat} {ino : Inode} {s : FsState} {bs : List Nat} {rdF : Nat}
      {inoF : Inode} {tr : List (Nat × Nat × Nat)},
      readLoop cfg offset start blocks len r i bo rd ino s = .ok (bs, rdF, inoF, tr) →
      tr = planList len blocks start r i bo rd := by
  intro r
  induction r with
  | zero =>
    intro i bo rd ino s bs rdF inoF tr h
    simp only [readLoop, Except.ok.injEq, Prod.mk.injEq] at h
    obtain ⟨-, -, -, ht⟩ := h
    rw [← ht]
    rfl
  | succ r ih =>
    intro i bo rd ino s bs rdF inoF tr h
    simp only [readLoop] at h
    split at h
    · exact absurd h (by simp)
    · rename_i page ino2 hg
      split at h
      · rename_i bs2 rd2 ino3 tr2 hrec
        simp only [Except.ok.injEq, Prod.mk.injEq] at h
        obtain ⟨-, -, -, ht⟩ := h
        rw [← ht, ih hrec]
        simp only [planList]
      · exact absurd h (by simp)

/-- Entry-wise characterization of the plan, general in the accumulators:
entry `p` acts on page `start + i + p`; its in-block offset is the first
computed offset for `p = 0` and `0` afterwards; its byte count is
`BLOCK_SIZE` minus the in-block offset except on the last block of the
whole span, where it is what remains of the `n` bytes. -/
lemma planList_getD (n blocks start : Nat) :
    ∀ (r i bo w p : Nat), p < r →
      (((planList n blocks start r i bo w).getD p (0, 0, 0)).1 = start + i + p) ∧
      (((planList n blocks start r i bo w).getD p (0, 0, 0)).2.1
        = if p = 0 then (if bo ≠ 0 ∧ 0 < i then 0 else bo) else 0) ∧
      (((planList n blocks start r i bo w).getD p (0, 0, 0)).2.2
        = if i + p = blocks - 1
          then n - (w + ((((planList n blocks start r i bo w).take p).map
              (fun e => e.2.2)).sum))
          else BLOCK_SIZE - ((planList n blocks start r i bo w).getD p (0, 0, 0)).2.1) := by
  intro r
  induction r with
  | zero =>
    intro i bo w p hp
    exact absurd hp (Nat.not_lt_zero p)
  | succ r ih =>
    intro i bo w p hp
    cases p with
    | zero =>
      refine ⟨?_, ?_, ?_⟩
      · simp [planList]
      · simp [planList]
      · simp only [planList, List.getD_cons_zero, List.take_zero, List.map_nil,
          List.sum_nil, Nat.add_zero]
    | succ p =>
      have hbo0 : (if (if bo ≠ 0 ∧ 0 < i then 0 else bo) ≠ 0 ∧ 0 < i + 1 then 0
          else (if bo ≠ 0 ∧ 0 < i then 0 else bo)) = 0 := by
        by_cases hb : (if bo ≠ 0 ∧ 0 < i then 0 else bo) = 0
        · simp [hb]
        · simp [hb, Nat.succ_pos]
      obtain ⟨ih1, ih2, ih3⟩ := ih (i + 1)
        (if bo ≠ 0 ∧ 0 < i then 0 else bo)
        (w + (if i = blocks - 1 then n - w
              else BLOCK_SIZE - (if bo ≠ 0 ∧ 0 < i then 0 else bo)))
        p (by omega)
      refine ⟨?_, ?_, ?_⟩
      · simp only [planList, List.getD_cons_succ]
        rw [ih1]
        omega
      · simp only [planList, List.getD_cons_succ]
        rw [ih2, hbo0]
        by_cases hp0 : p = 0 <;> simp [hp0]
      · simp only [planList, List.getD_cons_succ, List.take_succ_cons, List.map_cons,
          List.sum_cons]
        rw [ih3]
        have hip : i + 1 + p = i + (p + 1) := by omega
        rw [hip, Nat.add_assoc]

/-- The top-level plan of a span starting at skew `skew` over `n` bytes
satisfies the span specification. -/
lemma spanOk_plan (skew n start : Nat) :
    spanOk skew n start (planList n (ceil_div (skew + n) BLOCK_SIZE) start
      (ceil_div (skew + n) BLOCK_SIZE) 0 skew 0) := by
  constructor
  · rw [planList_length]
  · intro p hp
    rw [planList_length] at hp
    obtain ⟨g1, g2, g3⟩ := planList_getD n (ceil_div (skew + n) BLOCK_SIZE) start
      (ceil_div (skew + n) BLOCK_SIZE) 0 skew 0 p hp
    have g2' : ((planList n (ceil_div (skew + n) BLOCK_SIZE) start
        (ceil_div (skew + n) BLOCK_SIZE) 0 skew 0).getD p (0, 0, 0)).2.1
        = (if p = 0 then skew else 0) := by
      rw [g2]
      by_cases hp0 : p = 0 <;> simp [hp0]
    refine ⟨?_, g2', ?_⟩
    · rw [g1]
      omega
    · rw [g3, g2', planList_length]
      simp only [Nat.zero_add]

/-- C9: for every successful write (and symmetrically every read), the
per-block operation trace spans exactly
`ceil_div (offset % BLOCK_SIZE + n) BLOCK_SIZE` consecutive logical pages
starting at `offset / BLOCK_SIZE`; the in-block range starts at
`offset % BLOCK_SIZE` on the first block and at 0 on later blocks, and the
per-block byte count is `BLOCK_SIZE` minus that skew except on the last
spanned block, where it is the remaining byte count. -/
theorem c9_span_decomposition (cfg cfg2 : FsConfig) (s s2 : FsState) (ino ino2 : Inode)
    (o o2 len : Nat) (data : List Nat) (tr tr2 : List (Nat × Nat × Nat))
    (hw : writeTrace cfg s ino o data = some tr)
    (hr : readTrace cfg2 s2 ino2 o2 len = some tr2) :
    spanOk (o % BLOCK_SIZE) data.length (o / BLOCK_SIZE) tr ∧
    spanOk (o2 % BLOCK_SIZE) len (o2 / BLOCK_SIZE) tr2 := by
  constructor
  · unfold writeTrace at hw
    rcases hww : write cfg s ino o data with e | ⟨w, ino1, s1, trW⟩
    · rw [hww] at hw
      exact absurd hw (by simp)
    · rw [hww] at hw
      simp only [Option.some.injEq] at hw
      obtain ⟨ino0, hwl, -⟩ := write_ok_inv hww
      rw [← hw, writeLoop_trace cfg data o hwl]
      exact spanOk_plan (o % BLOCK_SIZE) data.length (o / BLOCK_SIZE)
  · unfold readTrace at hr
    rcases hrr : read cfg2 s2 ino2 o2 len with e | ⟨bs, rdF, inoF, trR⟩
    · rw [hrr] at hr
      exact absurd hr (by simp)
    · rw [hrr] at hr
      simp only [Option.some.injEq] at hr
      rw [read_eq] at hrr
      rw [← hr, readLoop_trace cfg2 o2 hrr]
      exact spanOk_plan (o2 % BLOCK_SIZE) len (o2 / BLOCK_SIZE)

/-- Witness for C9: a 20-byte write and read at offset 4090 each span two
blocks, with traces `[(0, 4090, 6), (1, 0, 14)]`. -/
theorem c9_span_decomposition_witness :
    writeTrace ⟨0, 4⟩ ⟨fun _ _ => 0, 0⟩ ⟨0, 0, none, none, 0⟩ 4090 (List.replicate 20 0)
      = some [(0, 4090, 6), (1, 0, 14)] ∧
    readTrace ⟨0, 4⟩
        ⟨fun l j => if l = 0 ∧ j = 8 then 64 else if l = 0 ∧ j = 9 then 31 else 0, 0⟩
        ⟨0, 0, none, none, 8000⟩ 4090 20 = some [(0, 4090, 6), (1, 0, 14)] ∧
    (spanOk (4090 % BLOCK_SIZE) (List.replicate 20 (0 : Nat)).length (4090 / BLOCK_SIZE)
        [(0, 4090, 6), (1, 0, 14)] ∧
      spanOk (4090 % BLOCK_SIZE) 20 (4090 / BLOCK_SIZE) [(0, 4090, 6), (1, 0, 14)]) :=
  ⟨rfl, rfl,
    c9_span_decomposition ⟨0, 4⟩ ⟨0, 4⟩ ⟨fun _ _ => 0, 0⟩
      ⟨fun l j => if l = 0 ∧ j = 8 then 64 else if l = 0 ∧ j = 9 then 31 else 0, 0⟩
      ⟨0, 0, none, none, 0⟩ ⟨0, 0, none, none, 8000⟩ 4090 4090 20 (List.replicate 20 0)
      [(0, 4090, 6), (1, 0, 14)] [(0, 4090, 6), (1, 0, 14)] rfl rfl⟩

end RustFS
